import Mathlib

/-!
# Verification of the signal reconciliation and execution engine (src/main.py)

Shallow embedding of the webhook trading engine.  Money amounts, prices and
quantities are modelled as exact rationals (the Python source uses IEEE
doubles; `round(x, 4)` is modelled as exact round-half-to-even at four
decimal places, which agrees with the double computation on every input used
below).  The external world (exchange responses) is passed in explicitly as
an `Env`; the handler's two pieces of process state (the single-slot dedup
record and the per-side entry counters) are threaded in and out.

Read-only API calls that cannot influence the rest of the request
(`set_leverage`, whose result the source discards, the `time.sleep` calls,
and the bounded position-confirmation poll in the reversal branches, whose
re-read `positions` value is never used afterwards) are not recorded; the
order trace contains exactly the `place-order` requests the source issues,
each tagged with the side, the size, and whether `reduceOnly` was set.
-/

namespace BotWLFI

/-- Configuration constants from the top of main.py. -/
def LEVERAGE : ℚ := 2

/-- main.py: `POSITION_SIZE_PERCENT = 0.5`. -/
def POSITION_SIZE_PERCENT : ℚ := 1/2

/-- main.py: `MAX_PYRAMIDING = 2`. -/
def MAX_PYRAMIDING : ℕ := 2

/-- The hardcoded dedup window of `is_duplicate` (seconds). -/
def DEDUP_WINDOW : ℚ := 2

/-- The single retained dedup record `last_action = {'key': None, 'time': 0}`. -/
structure DedupState where
  key : Option String
  time : ℚ
deriving DecidableEq, Repr

/-- The per-side pyramiding counters `position_state`. -/
structure PositionState where
  long_entries : ℕ
  short_entries : ℕ
deriving DecidableEq, Repr

/-- One `place-order` request sent to the exchange.  `close_position` sends
`reduceOnly = 'YES'`; `open_position` sends no reduce-only flag. -/
structure OrderCall where
  side : String
  qty : ℚ
  reduceOnly : Bool
deriving DecidableEq, Repr

/-- A `close_position symbol side quantity` request (reduce-only market order). -/
def closeCall (side : String) (qty : ℚ) : OrderCall := ⟨side, qty, true⟩

/-- An `open_position symbol side quantity` request (plain market order). -/
def openCall (side : String) (qty : ℚ) : OrderCall := ⟨side, qty, false⟩

/-- The exchange's behaviour during one request, observed through the five
calls the handler can make.  `priceRaw = none` models a failed ticker
request (`bitget_request` returned `None` or a non-`00000` code); `some p`
models a response whose `lastPr` parsed to `p`.  `balanceFetch = none`
models a failed accounts request or one with no USDT row (the source maps
both to `0.0`).  `positionsFetch = none` models a failed positions request
(mapped to `{'long': 0.0, 'short': 0.0}`).  `closeOk`/`openOk` are the
success (`code == '00000'`) of the close / open order placement the request
may issue, and `balance2` is the second balance read performed after a
confirmed close in a reversal. -/
structure Env where
  priceRaw : Option ℚ
  balanceFetch : Option ℚ
  positionsFetch : Option (ℚ × ℚ)
  closeOk : Bool
  balance2 : Option ℚ
  openOk : Bool
deriving DecidableEq, Repr

/-- The inbound webhook payload after the HTTP layer's JSON decode: the raw
`action`, `marketPosition` and `prevMarketPosition` strings (`data.get`
defaults them to `''`), and the result of `float(data.get('positionSize', 0))`
— `none` models the `float` conversion raising (non-numeric field), which the
handler's `except` clause turns into an error response. -/
structure Payload where
  action : String
  marketPosition : String
  prevMarketPosition : String
  positionSize : Option ℚ
deriving DecidableEq, Repr

/-- A structured JSON status response plus HTTP code. -/
structure Response where
  status : String
  code : ℕ
deriving DecidableEq, Repr

/-- Everything one webhook request produces: the response, the list of
place-order calls issued (in order), and the updated process state. -/
structure WebhookResult where
  resp : Response
  orders : List OrderCall
  ps : PositionState
  ded : DedupState
deriving DecidableEq, Repr

/-- Python `str.lower()`.  Semantically `String.toLower` (lower-case every
character), written over the character list so it evaluates by kernel
reduction. -/
def pyLower (s : String) : String := ⟨s.data.map Char.toLower⟩

/-- Model of `get_current_price`: `None` when the request failed, otherwise the
parsed `lastPr`, returned only when strictly positive (`price if price > 0
else None`). -/
def get_current_price (env : Env) : Option ℚ :=
  match env.priceRaw with
  | none => none
  | some p => if p > 0 then some p else none

/-- Model of `get_account_balance`: the available USDT balance, `0.0` when the
request failed or no USDT account row was present. -/
def get_account_balance (env : Env) : ℚ := env.balanceFetch.getD 0

/-- The second `get_account_balance()` call made after a confirmed close in
the reversal branches. -/
def get_account_balance2 (env : Env) : ℚ := env.balance2.getD 0

/-- Model of `get_positions`: the open (long, short) quantities for the symbol,
`(0, 0)` when the request failed. -/
def get_positions (env : Env) : ℚ × ℚ := env.positionsFetch.getD (0, 0)

/-- Model of `is_duplicate(key)` over explicit state: if the retained key matches and
less than `DEDUP_WINDOW` seconds elapsed, report a duplicate and leave the
record unchanged; otherwise overwrite the record with `(key, now)` and
report a non-duplicate. -/
def is_duplicate (st : DedupState) (key : String) (now : ℚ) : Bool × DedupState :=
  if st.key = some key ∧ now - st.time < DEDUP_WINDOW then (true, st)
  else (false, ⟨some key, now⟩)

/-- Model of `update_state(action)`: `add_long` increments the long counter and
zeroes the short one, `add_short` symmetrically, `reset` zeroes both; any
other argument only logs. -/
def update_state (ps : PositionState) (a : String) : PositionState :=
  if a = "add_long" then ⟨ps.long_entries + 1, 0⟩
  else if a = "add_short" then ⟨0, ps.short_entries + 1⟩
  else if a = "reset" then ⟨0, 0⟩
  else ps

/-- Python `round` to an integer: nearest, ties to even (on exact rationals).
`Rat.floor` is used rather than `Int.floor` so the definition evaluates by
kernel reduction; `Rat.floor_def` identifies the two. -/
def pyRound (x : ℚ) : ℤ :=
  if x - (x.floor : ℚ) < 1/2 then x.floor
  else if 1/2 < x - (x.floor : ℚ) then x.floor + 1
  else if x.floor % 2 = 0 then x.floor else x.floor + 1

/-- Python `round(x, 4)`: round to the nearest multiple of 1/10000, ties to
even. -/
def roundTo4 (x : ℚ) : ℚ := (pyRound (x * 10000) : ℚ) / 10000

/-- The inline sizing expression used by every opening branch of the
handler: `round((balance * POSITION_SIZE_PERCENT * LEVERAGE) / price, 4)`. -/
def sizeQuantity (balance price : ℚ) : ℚ :=
  roundTo4 (balance * POSITION_SIZE_PERCENT * LEVERAGE / price)

/-- The sizing rule as the specification words it ("rounded down to the
instrument's minimum size increment", here 1/10000): for refinement
comparison with `sizeQuantity`. -/
def sizeQuantityFloor (balance price : ℚ) : ℚ :=
  ((balance * POSITION_SIZE_PERCENT * LEVERAGE / price * 10000).floor : ℚ) / 10000

/-- The dedup key `f"{action}_{market_position}_{position_size}"`. -/
def mkKey (action marketPosition : String) (sz : ℚ) : String :=
  action ++ "_" ++ marketPosition ++ "_" ++ toString sz

/-- The response, order trace and updated entry counters of one non-duplicate
request whose price fetch returned `price`.  Mirrors the flat / buy / sell
dispatch of `webhook()` in main.py with its reversal, pyramiding and
new-position sub-branches. -/
def webhookCore (env : Env) (pay : Payload) (position_size : ℚ)
    (ps : PositionState) (price : ℚ) : Response × List OrderCall × PositionState :=
    let action := pyLower pay.action
    let market_position := pyLower pay.marketPosition
    let prev_market_position := pyLower pay.prevMarketPosition
    let balance := get_account_balance env
    let positions := get_positions env
    if position_size = 0 ∧ market_position = "flat" then
      -- FLAT: close whichever sides are open; results of the closes are
      -- discarded by the source; reset the tracker; success.
      (⟨"success", 200⟩,
        (if positions.1 > 0 then [closeCall "sell" positions.1] else [])
          ++ (if positions.2 > 0 then [closeCall "buy" positions.2] else []),
        update_state ps "reset")
    else if action = "buy" then
      if prev_market_position = "short" ∧ market_position = "long" then
        -- REVERSE SHORT->LONG: attempt the close when a short is open; only
        -- a successful close triggers the balance re-read; the open is
        -- placed unconditionally afterwards.
        let closes := if positions.2 > 0 then [closeCall "buy" positions.2] else []
        let balance1 :=
          if positions.2 > 0 ∧ env.closeOk then get_account_balance2 env else balance
        let quantity := sizeQuantity balance1 price
        if env.openOk then
          (⟨"success", 200⟩, closes ++ [openCall "buy" quantity],
            update_state ps "add_long")
        else
          (⟨"error", 500⟩, closes ++ [openCall "buy" quantity], ps)
      else if market_position = "long" ∧ positions.1 > 0 then
        -- PYRAMIDING long: capped by MAX_PYRAMIDING.
        if MAX_PYRAMIDING ≤ ps.long_entries then
          (⟨"ignored", 200⟩, [], ps)
        else
          let quantity := sizeQuantity balance price
          if env.openOk then
            (⟨"success", 200⟩, [openCall "buy" quantity], update_state ps "add_long")
          else
            (⟨"error", 500⟩, [openCall "buy" quantity], ps)
      else if market_position = "long" then
        -- NEW LONG: abort on non-positive balance, else open.
        if balance ≤ 0 then (⟨"error", 500⟩, [], ps)
        else
          let quantity := sizeQuantity balance price
          if env.openOk then
            (⟨"success", 200⟩, [openCall "buy" quantity], update_state ps "add_long")
          else
            (⟨"error", 500⟩, [openCall "buy" quantity], ps)
      else (⟨"ignored", 200⟩, [], ps)
    else if action = "sell" then
      if prev_market_position = "long" ∧ market_position = "short" then
        -- REVERSE LONG->SHORT.
        let closes := if positions.1 > 0 then [closeCall "sell" positions.1] else []
        let balance1 :=
          if positions.1 > 0 ∧ env.closeOk then get_account_balance2 env else balance
        let quantity := sizeQuantity balance1 price
        if env.openOk then
          (⟨"success", 200⟩, closes ++ [openCall "sell" quantity],
            update_state ps "add_short")
        else
          (⟨"error", 500⟩, closes ++ [openCall "sell" quantity], ps)
      else if market_position = "short" ∧ positions.2 > 0 then
        -- PYRAMIDING short.
        if MAX_PYRAMIDING ≤ ps.short_entries then
          (⟨"ignored", 200⟩, [], ps)
        else
          let quantity := sizeQuantity balance price
          if env.openOk then
            (⟨"success", 200⟩, [openCall "sell" quantity], update_state ps "add_short")
          else
            (⟨"error", 500⟩, [openCall "sell" quantity], ps)
      else if market_position = "short" then
        -- NEW SHORT.
        if balance ≤ 0 then (⟨"error", 500⟩, [], ps)
        else
          let quantity := sizeQuantity balance price
          if env.openOk then
            (⟨"success", 200⟩, [openCall "sell" quantity], update_state ps "add_short")
          else
            (⟨"error", 500⟩, [openCall "sell" quantity], ps)
      else (⟨"ignored", 200⟩, [], ps)
    else (⟨"ignored", 200⟩, [], ps)

/-- The body of the webhook handler once `positionSize` has parsed: dedup
check (the single-slot record is updated by `is_duplicate` and carried into
the result unchanged by the rest of the request), price fetch with abort on
`None`, then `webhookCore`. -/
def webhookBody (env : Env) (pay : Payload) (position_size : ℚ)
    (ded : DedupState) (ps : PositionState) (now : ℚ) : WebhookResult :=
    let action := pyLower pay.action
    let market_position := pyLower pay.marketPosition
    let dup := is_duplicate ded (mkKey action market_position position_size) now
    if dup.1 then ⟨⟨"ignored", 200⟩, [], ps, dup.2⟩
    else
      match get_current_price env with
      | none => ⟨⟨"error", 500⟩, [], ps, dup.2⟩
      | some price =>
        let core := webhookCore env pay position_size ps price
        ⟨core.1, core.2.1, core.2.2, dup.2⟩

/-- The webhook handler, as a function of the exchange behaviour `env`, the
decoded payload, the process state (dedup record and entry counters) and
the current time.  A `positionSize` field whose `float` conversion raises
is caught by the boundary `except` clause and mapped to an error response;
otherwise the body runs. -/
def webhook (env : Env) (pay : Payload) (ded : DedupState) (ps : PositionState)
    (now : ℚ) : WebhookResult :=
  match pay.positionSize with
  | none => ⟨⟨"error", 500⟩, [], ps, ded⟩
  | some position_size => webhookBody env pay position_size ded ps now

/-- Process a list of (environment, payload, arrival time) requests in
order, threading the dedup record and the entry counters, and collecting
every order placed. -/
def runSignals (reqs : List (Env × Payload × ℚ)) (ded : DedupState)
    (ps : PositionState) : PositionState × DedupState × List OrderCall :=
  match reqs with
  | [] => (ps, ded, [])
  | (env, pay, now) :: rest =>
    let r := webhook env pay ded ps now
    let rest2 := runSignals rest r.ded r.ps
    (rest2.1, rest2.2.1, r.orders ++ rest2.2.2)

/-- The initial dedup record. -/
def ded0 : DedupState := ⟨none, 0⟩

/-- The initial entry counters. -/
def ps0 : PositionState := ⟨0, 0⟩

/-- Lemma: `Rat.floor` agrees with the `Int.floor` of the order structure on ℚ;
used so `norm_num` can evaluate `pyRound` on concrete rationals. -/
theorem ratFloor_eq (x : ℚ) : x.floor = ⌊x⌋ := by
  rw [Rat.floor_def', Rat.floor_def]

/-- Unfolding rule: once the payload's `positionSize` parses, the handler
runs its body on the parsed value. -/
theorem webhook_some {env : Env} {pay : Payload} {ded : DedupState}
    {ps : PositionState} {now sz : ℚ} (hsz : pay.positionSize = some sz) :
    webhook env pay ded ps now = webhookBody env pay sz ded ps now := by
  unfold webhook
  rw [hsz]

/-- Unfolding rule: a payload whose `positionSize` fails to parse is caught
at the request boundary and mapped to a bare error response. -/
theorem webhook_none {env : Env} {pay : Payload} {ded : DedupState}
    {ps : PositionState} {now : ℚ} (hsz : pay.positionSize = none) :
    webhook env pay ded ps now = ⟨⟨"error", 500⟩, [], ps, ded⟩ := by
  unfold webhook
  rw [hsz]

set_option maxRecDepth 8000

/-- A positive duplicate report leaves the record unchanged. -/
theorem is_dup_true_eq (st : DedupState) (key : String) (now : ℚ)
    (h : (is_duplicate st key now).1 = true) :
    is_duplicate st key now = (true, st) := by
  unfold is_duplicate at h ⊢
  split_ifs at h ⊢
  rfl

/-- A negative duplicate report overwrites the record with `(key, now)`. -/
theorem is_dup_false_eq (st : DedupState) (key : String) (now : ℚ)
    (h : (is_duplicate st key now).1 = false) :
    is_duplicate st key now = (false, ⟨some key, now⟩) := by
  unfold is_duplicate at h ⊢
  split_ifs at h ⊢
  rfl

/-- Once the payload parses, every branch of the handler returns the dedup
record produced by the `is_duplicate` call. -/
theorem webhook_ded (env : Env) (pay : Payload) (ded : DedupState)
    (ps : PositionState) (now sz : ℚ) (hsz : pay.positionSize = some sz) :
    (webhook env pay ded ps now).ded =
      (is_duplicate ded
        (mkKey (pyLower pay.action) (pyLower pay.marketPosition) sz) now).2 := by
  rw [webhook_some hsz]
  unfold webhookBody
  cases hgp : get_current_price env <;> dsimp only <;> split_ifs <;> rfl

/-- A non-duplicate request with an available price is the core dispatch,
with the dedup record from `is_duplicate` carried into the result. -/
theorem webhook_eq_core {env : Env} {pay : Payload} {ded : DedupState}
    {ps : PositionState} {now sz price : ℚ}
    (hsz : pay.positionSize = some sz)
    (hd : (is_duplicate ded
      (mkKey (pyLower pay.action) (pyLower pay.marketPosition) sz) now).1 = false)
    (hp : get_current_price env = some price) :
    webhook env pay ded ps now =
      ⟨(webhookCore env pay sz ps price).1,
        (webhookCore env pay sz ps price).2.1,
        (webhookCore env pay sz ps price).2.2,
        (is_duplicate ded
          (mkKey (pyLower pay.action) (pyLower pay.marketPosition) sz) now).2⟩ := by
  rw [webhook_some hsz]
  simp only [webhookBody, hd, hp]
  simp

/-- C1 counterexample: the live snapshot shows an open short of 50 while the
signal asks for long (`action = buy`, `marketPosition = long`), but because
the signal's `prevMarketPosition` is `"flat"` rather than `"short"` the
engine takes the new-position branch: it places a plain (non-reduce-only)
open-buy with no prior close of the opposite side and reports success.  The
dispatch is driven by the signal's previous-position field, not by the live
snapshot's quantities. -/
theorem reversal_ignores_snapshot_cex :
    webhook ⟨some 1000, some 100, some (0, 50), true, some 0, true⟩
        ⟨"buy", "long", "flat", some 1⟩ ⟨none, 0⟩ ⟨0, 0⟩ 0 =
      ⟨⟨"success", 200⟩, [openCall "buy" (1/10)], ⟨1, 0⟩,
        ⟨some (mkKey "buy" "long" 1), 0⟩⟩
    ∧ (get_positions ⟨some 1000, some 100, some (0, 50), true, some 0, true⟩).2 = 50
    ∧ ((webhook ⟨some 1000, some 100, some (0, 50), true, some 0, true⟩
        ⟨"buy", "long", "flat", some 1⟩ ⟨none, 0⟩ ⟨0, 0⟩ 0).orders.any
          (fun o => o.reduceOnly)) = false := by
  refine ⟨by with_unfolding_all rfl, by with_unfolding_all rfl, ?_⟩
  with_unfolding_all rfl

/-- C1 (amended): the reversal branch is selected by the signal's
`prevMarketPosition`/`marketPosition` fields, not by the live snapshot; when
it is selected and the live snapshot shows an opposite-side quantity > 0,
the engine places the reduce-only close of exactly that quantity strictly
before the same-side open order. -/
theorem reversal_close_precedes_open (env : Env) (pay : Payload)
    (ded : DedupState) (ps : PositionState) (now sz price : ℚ)
    (hsz : pay.positionSize = some sz)
    (hp : get_current_price env = some price)
    (hd : (is_duplicate ded
      (mkKey (pyLower pay.action) (pyLower pay.marketPosition) sz) now).1 = false) :
    (pyLower pay.action = "buy" → pyLower pay.prevMarketPosition = "short" →
      pyLower pay.marketPosition = "long" → 0 < (get_positions env).2 →
      ∃ q, (webhook env pay ded ps now).orders =
        [closeCall "buy" (get_positions env).2, openCall "buy" q])
    ∧ (pyLower pay.action = "sell" → pyLower pay.prevMarketPosition = "long" →
      pyLower pay.marketPosition = "short" → 0 < (get_positions env).1 →
      ∃ q, (webhook env pay ded ps now).orders =
        [closeCall "sell" (get_positions env).1, openCall "sell" q]) := by
  constructor
  · intro ha hprev hmp hpos
    simp only [ha, hmp] at hd
    rw [webhook_some hsz]
    simp only [webhookBody, webhookCore, ha, hprev, hmp, hd, hp, gt_iff_lt, hpos]
    cases env.openOk <;> simp
  · intro ha hprev hmp hpos
    simp only [ha, hmp] at hd
    rw [webhook_some hsz]
    simp only [webhookBody, webhookCore, ha, hprev, hmp, hd, hp, gt_iff_lt, hpos]
    cases env.openOk <;> simp

/-- Witness for `reversal_close_precedes_open`: a declared short-to-long
reversal with an open short of 50 closes it (reduce-only buy of 50) before
the open-buy. -/
theorem reversal_close_precedes_open_w :
    ∃ q, (webhook ⟨some 100, some 100, some (0, 50), true, some 40, true⟩
      ⟨"buy", "long", "short", some 1⟩ ⟨none, 0⟩ ⟨0, 0⟩ 0).orders =
        [closeCall "buy" 50, openCall "buy" q] := by
  have h := (reversal_close_precedes_open
    ⟨some 100, some 100, some (0, 50), true, some 40, true⟩
    ⟨"buy", "long", "short", some 1⟩ ⟨none, 0⟩ ⟨0, 0⟩ 0 1 100
    rfl rfl (by with_unfolding_all rfl)).1 (by with_unfolding_all rfl)
    (by with_unfolding_all rfl) (by with_unfolding_all rfl) (by norm_num [get_positions])
  simpa [get_positions] using h

/-- C5: the dedup algorithm of `is_duplicate` — a key match within the
window reports a duplicate and leaves the single retained record unchanged,
anything else overwrites the record with `(key, now)` and reports a
non-duplicate; a duplicate request returns `ignored` and places no order;
and a second submission of the same payload within the window after a
non-duplicate first submission is ignored, places no orders and changes no
state, so the pair of submissions places exactly the orders of the first. -/
theorem dedup_idempotent (ded : DedupState) (env1 env2 : Env) (pay : Payload)
    (ps : PositionState) (now1 now2 sz : ℚ) (key : String)
    (hsz : pay.positionSize = some sz) :
    (ded.key = some key ∧ now1 - ded.time < DEDUP_WINDOW →
      is_duplicate ded key now1 = (true, ded))
    ∧ (¬(ded.key = some key ∧ now1 - ded.time < DEDUP_WINDOW) →
      is_duplicate ded key now1 = (false, ⟨some key, now1⟩))
    ∧ ((is_duplicate ded
          (mkKey (pyLower pay.action) (pyLower pay.marketPosition) sz) now1).1 = true →
      webhook env1 pay ded ps now1 = ⟨⟨"ignored", 200⟩, [], ps, ded⟩)
    ∧ ((is_duplicate ded
          (mkKey (pyLower pay.action) (pyLower pay.marketPosition) sz) now1).1 = false →
      now2 - now1 < DEDUP_WINDOW →
      webhook env2 pay (webhook env1 pay ded ps now1).ded
          (webhook env1 pay ded ps now1).ps now2
        = ⟨⟨"ignored", 200⟩, [], (webhook env1 pay ded ps now1).ps,
            (webhook env1 pay ded ps now1).ded⟩) := by
  refine ⟨?_, ?_, ?_, ?_⟩
  · intro hc
    unfold is_duplicate
    rw [if_pos hc]
  · intro hc
    unfold is_duplicate
    rw [if_neg hc]
  · intro hdup
    have he := is_dup_true_eq _ _ _ hdup
    rw [webhook_some hsz]
    unfold webhookBody
    dsimp only
    simp only [he]
    simp
  · intro hdup hlt
    have hded := webhook_ded env1 pay ded ps now1 sz hsz
    have hf := is_dup_false_eq _ _ _ hdup
    have hrec : (webhook env1 pay ded ps now1).ded =
        ⟨some (mkKey (pyLower pay.action) (pyLower pay.marketPosition) sz), now1⟩ := by
      rw [hded, hf]
    have hdup2 : (is_duplicate
        (⟨some (mkKey (pyLower pay.action) (pyLower pay.marketPosition) sz), now1⟩ :
          DedupState)
        (mkKey (pyLower pay.action) (pyLower pay.marketPosition) sz) now2).1 = true := by
      unfold is_duplicate
      rw [if_pos ⟨rfl, hlt⟩]
    have he2 := is_dup_true_eq _ _ _ hdup2
    rw [webhook_some hsz]
    unfold webhookBody
    dsimp only
    rw [hrec]
    simp only [he2]
    simp

/-- Witness for `dedup_idempotent`: a new-long signal submitted again one
second after a first submission that opened a long of 100 is ignored and
adds no orders. -/
theorem dedup_idempotent_w :
    webhook ⟨some 1, some 100, some (0, 0), true, some 0, true⟩
        ⟨"buy", "long", "flat", some 1⟩
        (webhook ⟨some 1, some 100, some (0, 0), true, some 0, true⟩
          ⟨"buy", "long", "flat", some 1⟩ ⟨none, 0⟩ ⟨0, 0⟩ 0).ded
        (webhook ⟨some 1, some 100, some (0, 0), true, some 0, true⟩
          ⟨"buy", "long", "flat", some 1⟩ ⟨none, 0⟩ ⟨0, 0⟩ 0).ps 1
      = ⟨⟨"ignored", 200⟩, [],
          (webhook ⟨some 1, some 100, some (0, 0), true, some 0, true⟩
            ⟨"buy", "long", "flat", some 1⟩ ⟨none, 0⟩ ⟨0, 0⟩ 0).ps,
          (webhook ⟨some 1, some 100, some (0, 0), true, some 0, true⟩
            ⟨"buy", "long", "flat", some 1⟩ ⟨none, 0⟩ ⟨0, 0⟩ 0).ded⟩
    ∧ (webhook ⟨some 1, some 100, some (0, 0), true, some 0, true⟩
        ⟨"buy", "long", "flat", some 1⟩ ⟨none, 0⟩ ⟨0, 0⟩ 0).orders
      = [openCall "buy" 100] := by
  constructor
  · exact (dedup_idempotent ⟨none, 0⟩
      ⟨some 1, some 100, some (0, 0), true, some 0, true⟩
      ⟨some 1, some 100, some (0, 0), true, some 0, true⟩
      ⟨"buy", "long", "flat", some 1⟩ ⟨0, 0⟩ 0 1 1 "" rfl).2.2.2
      (by with_unfolding_all rfl) (by norm_num [DEDUP_WINDOW])
  · with_unfolding_all rfl

/-- C8: on a flat signal (`positionSize = 0`, `marketPosition = "flat"`) that
is not a duplicate and for which the price fetch succeeds, the engine closes
the long side with a reduce-only sell of exactly the snapshot's long
quantity when it is positive, closes the short side with a reduce-only buy
of exactly the short quantity when it is positive, places nothing when both
are zero, resets the entry-count tracker to `{0, 0}`, and returns a success
response. -/
theorem flat_signal_behavior (env : Env) (pay : Payload) (ded : DedupState)
    (ps : PositionState) (now price : ℚ)
    (hsz : pay.positionSize = some 0)
    (hmp : pyLower pay.marketPosition = "flat")
    (hd : (is_duplicate ded (mkKey (pyLower pay.action) "flat" 0) now).1 = false)
    (hp : get_current_price env = some price) :
    webhook env pay ded ps now =
      ⟨⟨"success", 200⟩,
        (if (get_positions env).1 > 0 then [closeCall "sell" (get_positions env).1] else [])
          ++ (if (get_positions env).2 > 0 then [closeCall "buy" (get_positions env).2] else []),
        ⟨0, 0⟩,
        (is_duplicate ded (mkKey (pyLower pay.action) "flat" 0) now).2⟩ := by
  rw [webhook_some hsz]
  simp only [webhookBody, webhookCore, hmp, hd, hp, update_state]
  simp

/-- Witness for `flat_signal_behavior`: a flat signal with both live
quantities zero places no orders, resets the tracker and succeeds. -/
theorem flat_signal_behavior_w :
    webhook ⟨some 2, some 30, some (0, 0), true, some 0, true⟩
      ⟨"sell", "FLAT", "long", some 0⟩ ⟨none, 0⟩ ⟨1, 1⟩ 5 =
      ⟨⟨"success", 200⟩, [], ⟨0, 0⟩,
        ⟨some (mkKey "sell" "flat" 0), 5⟩⟩ := by
  have h := flat_signal_behavior ⟨some 2, some 30, some (0, 0), true, some 0, true⟩
    ⟨"sell", "FLAT", "long", some 0⟩ ⟨none, 0⟩ ⟨1, 1⟩ 5 2
    rfl (by with_unfolding_all rfl) (by with_unfolding_all rfl) rfl
  simpa [is_duplicate, get_positions] using h

/-- C2 counterexample: with balance 1 and price 1 the computed exposure
`1 * 0.5 * 2 = 1` is far below the specification's minimum notional
(observed value 5), yet the engine places an open-buy of quantity 1 and
returns success — there is no minimum-notional check and no
`InsufficientExposure` abort. -/
theorem no_min_notional_cex :
    (1 : ℚ) * POSITION_SIZE_PERCENT * LEVERAGE < 5
    ∧ webhook ⟨some 1, some 1, some (0, 0), true, some 0, true⟩
        ⟨"buy", "long", "flat", some 1⟩ ⟨none, 0⟩ ⟨0, 0⟩ 0 =
      ⟨⟨"success", 200⟩, [openCall "buy" 1], ⟨1, 0⟩,
        ⟨some (mkKey "buy" "long" 1), 0⟩⟩ := by
  constructor
  · norm_num [POSITION_SIZE_PERCENT, LEVERAGE]
  · with_unfolding_all rfl

/-- C2 (amended): the engine has no minimum-notional check.  In the
new-position branches the only sizing guard is `balance <= 0`, which aborts
with an error status and no order; with any positive balance the engine
attempts the open order of quantity `sizeQuantity balance price`, however
small the exposure. -/
theorem balance_guard_new_position (env : Env) (pay : Payload)
    (ded : DedupState) (ps : PositionState) (now sz price : ℚ)
    (hsz : pay.positionSize = some sz)
    (hp : get_current_price env = some price)
    (hd : (is_duplicate ded
      (mkKey (pyLower pay.action) (pyLower pay.marketPosition) sz) now).1 = false) :
    (pyLower pay.action = "buy" → pyLower pay.prevMarketPosition ≠ "short" →
      pyLower pay.marketPosition = "long" → ¬(0 < (get_positions env).1) →
      (get_account_balance env ≤ 0 →
        webhook env pay ded ps now = ⟨⟨"error", 500⟩, [], ps,
          (is_duplicate ded
            (mkKey (pyLower pay.action) (pyLower pay.marketPosition) sz) now).2⟩)
      ∧ (0 < get_account_balance env →
        (webhook env pay ded ps now).orders =
          [openCall "buy" (sizeQuantity (get_account_balance env) price)]))
    ∧ (pyLower pay.action = "sell" → pyLower pay.prevMarketPosition ≠ "long" →
      pyLower pay.marketPosition = "short" → ¬(0 < (get_positions env).2) →
      (get_account_balance env ≤ 0 →
        webhook env pay ded ps now = ⟨⟨"error", 500⟩, [], ps,
          (is_duplicate ded
            (mkKey (pyLower pay.action) (pyLower pay.marketPosition) sz) now).2⟩)
      ∧ (0 < get_account_balance env →
        (webhook env pay ded ps now).orders =
          [openCall "sell" (sizeQuantity (get_account_balance env) price)])) := by
  constructor
  · intro ha hprev hmp hpos
    have hd' := hd
    simp only [ha, hmp] at hd'
    constructor
    · intro hb
      rw [webhook_some hsz]
      simp only [webhookBody, webhookCore, ha, hprev, hmp, hd', hp, gt_iff_lt,
        hpos, hb]
      simp [ha, hmp]
    · intro hb
      have hb' : ¬(get_account_balance env ≤ 0) := not_le.mpr hb
      rw [webhook_some hsz]
      simp only [webhookBody, webhookCore, ha, hprev, hmp, hd', hp, gt_iff_lt,
        hpos, hb']
      cases env.openOk <;> simp
  · intro ha hprev hmp hpos
    have hd' := hd
    simp only [ha, hmp] at hd'
    constructor
    · intro hb
      rw [webhook_some hsz]
      simp only [webhookBody, webhookCore, ha, hprev, hmp, hd', hp, gt_iff_lt,
        hpos, hb]
      simp [ha, hmp]
    · intro hb
      have hb' : ¬(get_account_balance env ≤ 0) := not_le.mpr hb
      rw [webhook_some hsz]
      simp only [webhookBody, webhookCore, ha, hprev, hmp, hd', hp, gt_iff_lt,
        hpos, hb']
      cases env.openOk <;> simp

/-- Witness for `balance_guard_new_position`: a new-long signal processed
while the balance fetch failed (balance 0) aborts with an error and no
order. -/
theorem balance_guard_new_position_w :
    webhook ⟨some 2, none, some (0, 0), true, some 0, true⟩
        ⟨"buy", "long", "flat", some 3⟩ ⟨none, 0⟩ ⟨0, 0⟩ 0
      = ⟨⟨"error", 500⟩, [], ⟨0, 0⟩, ⟨some (mkKey "buy" "long" 3), 0⟩⟩ := by
  have h := ((balance_guard_new_position
      ⟨some 2, none, some (0, 0), true, some 0, true⟩
      ⟨"buy", "long", "flat", some 3⟩ ⟨none, 0⟩ ⟨0, 0⟩ 0 3 2
      rfl (by with_unfolding_all rfl) (by with_unfolding_all rfl)).1
      (by with_unfolding_all rfl) (by with_unfolding_all decide)
      (by with_unfolding_all rfl) (by norm_num [get_positions])).1
      (by norm_num [get_account_balance])
  rw [h]
  with_unfolding_all rfl

/-- C3 counterexample: starting from zero entry counters, a new-long signal
followed by a pyramiding long signal brings `long_entries` to the cap of 2,
and a third buy signal carrying `prevMarketPosition = "short"` takes the
reversal branch — which increments the counter without consulting the cap —
leaving `long_entries = 3 > MAX_PYRAMIDING`. -/
theorem pyramid_cap_exceeded_cex :
    (runSignals
        [(⟨some 1, some 100, some (0, 0), true, some 0, true⟩,
            ⟨"buy", "long", "flat", some 1⟩, 0),
          (⟨some 1, some 100, some (100, 0), true, some 0, true⟩,
            ⟨"buy", "long", "flat", some 1⟩, 10),
          (⟨some 1, some 100, some (200, 0), true, some 0, true⟩,
            ⟨"buy", "long", "short", some 1⟩, 20)]
        ⟨none, 0⟩ ⟨0, 0⟩).1.long_entries = 3
    ∧ MAX_PYRAMIDING < 3 := by
  constructor
  · with_unfolding_all rfl
  · decide

/-- C3 (amended): the pyramiding cap is enforced only inside the pyramiding
branch — when the signal asks for the side that is already open in the live
snapshot, does not declare a reversal, and the side's entry counter has
reached `MAX_PYRAMIDING`, the engine places no order, leaves all state
unchanged and returns the benign `ignored`/200 response.  The reversal and
new-position branches increment the counters without consulting the cap. -/
theorem pyramid_cap_branch_enforced (env : Env) (pay : Payload)
    (ded : DedupState) (ps : PositionState) (now sz price : ℚ)
    (hsz : pay.positionSize = some sz)
    (hp : get_current_price env = some price)
    (hd : (is_duplicate ded
      (mkKey (pyLower pay.action) (pyLower pay.marketPosition) sz) now).1 = false) :
    (pyLower pay.action = "buy" → pyLower pay.prevMarketPosition ≠ "short" →
      pyLower pay.marketPosition = "long" → 0 < (get_positions env).1 →
      MAX_PYRAMIDING ≤ ps.long_entries →
      webhook env pay ded ps now = ⟨⟨"ignored", 200⟩, [], ps,
        (is_duplicate ded
          (mkKey (pyLower pay.action) (pyLower pay.marketPosition) sz) now).2⟩)
    ∧ (pyLower pay.action = "sell" → pyLower pay.prevMarketPosition ≠ "long" →
      pyLower pay.marketPosition = "short" → 0 < (get_positions env).2 →
      MAX_PYRAMIDING ≤ ps.short_entries →
      webhook env pay ded ps now = ⟨⟨"ignored", 200⟩, [], ps,
        (is_duplicate ded
          (mkKey (pyLower pay.action) (pyLower pay.marketPosition) sz) now).2⟩) := by
  constructor
  · intro ha hprev hmp hpos hcap
    have hd' := hd
    simp only [ha, hmp] at hd'
    rw [webhook_some hsz]
    simp only [webhookBody, webhookCore, ha, hprev, hmp, hd', hp, gt_iff_lt,
      hpos, hcap]
    simp [ha, hmp]
  · intro ha hprev hmp hpos hcap
    have hd' := hd
    simp only [ha, hmp] at hd'
    rw [webhook_some hsz]
    simp only [webhookBody, webhookCore, ha, hprev, hmp, hd', hp, gt_iff_lt,
      hpos, hcap]
    simp [ha, hmp]

/-- Witness for `pyramid_cap_branch_enforced`: a pyramiding long signal with
the counter already at the cap is ignored with no order and no state
change. -/
theorem pyramid_cap_branch_enforced_w :
    webhook ⟨some 1, some 100, some (10, 0), true, some 0, true⟩
        ⟨"buy", "long", "", some 7⟩ ⟨none, 0⟩ ⟨2, 0⟩ 0
      = ⟨⟨"ignored", 200⟩, [], ⟨2, 0⟩, ⟨some (mkKey "buy" "long" 7), 0⟩⟩ := by
  have h := (pyramid_cap_branch_enforced
      ⟨some 1, some 100, some (10, 0), true, some 0, true⟩
      ⟨"buy", "long", "", some 7⟩ ⟨none, 0⟩ ⟨2, 0⟩ 0 7 1
      rfl (by with_unfolding_all rfl) (by with_unfolding_all rfl)).1
      (by with_unfolding_all rfl) (by with_unfolding_all decide)
      (by with_unfolding_all rfl) (by norm_num [get_positions]) (by decide)
  rw [h]
  with_unfolding_all rfl

/-- C4 counterexample: a reversal request processed while the balance fetch
failed (balance coerced to 0.0, and the post-close re-read also failed)
still places the reduce-only close and then attempts an open of quantity 0,
returning success — the engine does not abort on a failed balance fetch. -/
theorem balance_fetch_failure_proceeds_cex :
    (⟨some 10, none, some (0, 5), true, none, true⟩ : Env).balanceFetch = none
    ∧ webhook ⟨some 10, none, some (0, 5), true, none, true⟩
        ⟨"buy", "long", "short", some 1⟩ ⟨none, 0⟩ ⟨0, 0⟩ 0 =
      ⟨⟨"success", 200⟩, [closeCall "buy" 5, openCall "buy" 0], ⟨1, 0⟩,
        ⟨some (mkKey "buy" "long" 1), 0⟩⟩ :=
  ⟨rfl, by with_unfolding_all rfl⟩

/-- C4 (amended): only the price fetch is load-bearing — a failed ticker
request or a non-positive price aborts the request with an error status and
no order.  A failed balance fetch is coerced to balance 0.0 and the request
proceeds: a reversal request still places its reduce-only close and then an
open order. -/
theorem price_unavailable_aborts (env : Env) (pay : Payload)
    (ded : DedupState) (ps : PositionState) (now sz price : ℚ)
    (hsz : pay.positionSize = some sz) :
    ((is_duplicate ded
        (mkKey (pyLower pay.action) (pyLower pay.marketPosition) sz) now).1 = false →
      get_current_price env = none →
      webhook env pay ded ps now = ⟨⟨"error", 500⟩, [], ps,
        (is_duplicate ded
          (mkKey (pyLower pay.action) (pyLower pay.marketPosition) sz) now).2⟩)
    ∧ (env.balanceFetch = none →
      (is_duplicate ded
        (mkKey (pyLower pay.action) (pyLower pay.marketPosition) sz) now).1 = false →
      get_current_price env = some price →
      pyLower pay.action = "buy" → pyLower pay.prevMarketPosition = "short" →
      pyLower pay.marketPosition = "long" → 0 < (get_positions env).2 →
      ∃ q, (webhook env pay ded ps now).orders =
        [closeCall "buy" (get_positions env).2, openCall "buy" q]) := by
  constructor
  · intro hd hp
    rw [webhook_some hsz]
    simp only [webhookBody, hd, hp]
    simp
  · intro hbf hd hp ha hprev hmp hpos
    simp only [ha, hmp] at hd
    rw [webhook_some hsz]
    simp only [webhookBody, webhookCore, ha, hprev, hmp, hd, hp, gt_iff_lt, hpos]
    cases env.openOk <;> simp

/-- Witness for `price_unavailable_aborts`: a request whose ticker fetch
failed is rejected with an error and no order. -/
theorem price_unavailable_aborts_w :
    webhook ⟨none, some 50, some (3, 4), true, some 0, true⟩
        ⟨"sell", "short", "", some 2⟩ ⟨none, 0⟩ ⟨0, 1⟩ 0
      = ⟨⟨"error", 500⟩, [], ⟨0, 1⟩, ⟨some (mkKey "sell" "short" 2), 0⟩⟩ := by
  have h := (price_unavailable_aborts ⟨none, some 50, some (3, 4), true, some 0, true⟩
      ⟨"sell", "short", "", some 2⟩ ⟨none, 0⟩ ⟨0, 1⟩ 0 2 1 rfl).1
      (by with_unfolding_all rfl) rfl
  rw [h]
  with_unfolding_all rfl

/-- The integer produced by `pyRound` is within one half of its argument. -/
theorem abs_pyRound_sub_le (x : ℚ) : |(pyRound x : ℚ) - x| ≤ 1/2 := by
  have h0 : ((⌊x⌋ : ℤ) : ℚ) ≤ x := Int.floor_le x
  have h1 : x < ⌊x⌋ + 1 := Int.lt_floor_add_one x
  unfold pyRound
  simp only [ratFloor_eq]
  split_ifs with hf hg he
  · rw [abs_le]
    constructor <;> linarith
  · rw [abs_le]
    push_cast
    constructor <;> linarith
  · rw [not_lt] at hf hg
    rw [abs_le]
    constructor <;> linarith
  · rw [not_lt] at hf hg
    rw [abs_le]
    push_cast
    constructor <;> linarith

/-- Lemma: `roundTo4` is within half of one 1/10000 increment of its argument. -/
theorem abs_roundTo4_sub_le (x : ℚ) : |roundTo4 x - x| ≤ 1/20000 := by
  have h := abs_pyRound_sub_le (x * 10000)
  unfold roundTo4
  have e : (pyRound (x * 10000) : ℚ) / 10000 - x
      = ((pyRound (x * 10000) : ℚ) - x * 10000) / 10000 := by ring
  rw [e, abs_div, abs_of_pos (by norm_num : (0:ℚ) < 10000)]
  calc |(pyRound (x * 10000) : ℚ) - x * 10000| / 10000
      ≤ (1/2) / 10000 := by
        exact (div_le_div_iff_of_pos_right (by norm_num)).mpr h
    _ = 1/20000 := by norm_num

/-- C6 counterexample: with balance 1 and price 6000 the sizing rounds UP
(`1/6000 = 0.000166...` becomes `0.0002`), so `quantity * price = 1.2`
strictly exceeds the exposure `1 * 0.5 * 2 = 1`, and the computed quantity
differs from the specification's round-down rule. -/
theorem round_exceeds_exposure_cex :
    sizeQuantity 1 6000 * 6000 > 1 * POSITION_SIZE_PERCENT * LEVERAGE
    ∧ sizeQuantity 1 6000 ≠ sizeQuantityFloor 1 6000 := by
  have h : sizeQuantity 1 6000 = 1/5000 := by with_unfolding_all rfl
  have h2 : sizeQuantityFloor 1 6000 = 1/10000 := by with_unfolding_all rfl
  rw [h, h2]
  norm_num [POSITION_SIZE_PERCENT, LEVERAGE]

/-- C6 (amended): the order quantity is `exposure / price` rounded to the
NEAREST multiple of the hardcoded increment 1/10000 (ties to even), so
`quantity * price` is within half an increment times the price of the
exposure `balance * POSITION_SIZE_PERCENT * LEVERAGE` — it can exceed the
exposure by up to `price / 20000`. -/
theorem sizing_within_half_increment (balance price : ℚ) (hp : 0 < price) :
    sizeQuantity balance price
        = roundTo4 (balance * POSITION_SIZE_PERCENT * LEVERAGE / price)
    ∧ |sizeQuantity balance price * price
          - balance * POSITION_SIZE_PERCENT * LEVERAGE|
        ≤ price / 20000 := by
  refine ⟨rfl, ?_⟩
  have hne : price ≠ 0 := ne_of_gt hp
  have h := abs_roundTo4_sub_le (balance * POSITION_SIZE_PERCENT * LEVERAGE / price)
  have e : sizeQuantity balance price * price
        - balance * POSITION_SIZE_PERCENT * LEVERAGE
      = (roundTo4 (balance * POSITION_SIZE_PERCENT * LEVERAGE / price)
          - balance * POSITION_SIZE_PERCENT * LEVERAGE / price) * price := by
    unfold sizeQuantity
    field_simp
  rw [e, abs_mul, abs_of_pos hp]
  calc |roundTo4 (balance * POSITION_SIZE_PERCENT * LEVERAGE / price)
        - balance * POSITION_SIZE_PERCENT * LEVERAGE / price| * price
      ≤ (1/20000) * price := mul_le_mul_of_nonneg_right h (le_of_lt hp)
    _ = price / 20000 := by ring

/-- Witness for `sizing_within_half_increment` at balance 100, price 2:
the quantity is 50 and `50 * 2` is exactly the exposure 100. -/
theorem sizing_within_half_increment_w :
    (0:ℚ) < 2
    ∧ (sizeQuantity 100 2 = roundTo4 (100 * POSITION_SIZE_PERCENT * LEVERAGE / 2)
      ∧ |sizeQuantity 100 2 * 2 - 100 * POSITION_SIZE_PERCENT * LEVERAGE|
        ≤ 2 / 20000) :=
  ⟨by norm_num, sizing_within_half_increment 100 2 (by norm_num)⟩

/-- C7 counterexample: in a declared reversal the close order fails
(`closeOk = false`), yet the engine does not surface an error or stop — it
skips only the balance re-read, proceeds to place the open order sized from
the stale balance, and reports success. -/
theorem close_failure_proceeds_cex :
    (⟨some 100, some 100, some (0, 5), false, some 999, true⟩ : Env).closeOk = false
    ∧ webhook ⟨some 100, some 100, some (0, 5), false, some 999, true⟩
        ⟨"buy", "long", "short", some 1⟩ ⟨none, 0⟩ ⟨0, 0⟩ 0 =
      ⟨⟨"success", 200⟩, [closeCall "buy" 5, openCall "buy" 1], ⟨1, 0⟩,
        ⟨some (mkKey "buy" "long" 1), 0⟩⟩ :=
  ⟨rfl, by with_unfolding_all rfl⟩

set_option maxHeartbeats 1000000

/-- In every dispatch branch whose trace contains a non-reduce-only order,
a failed open placement yields the error response and leaves the counters
unchanged. -/
theorem webhookCore_openFail (env : Env) (pay : Payload) (sz : ℚ)
    (ps : PositionState) (price : ℚ) (hopen : env.openOk = false) :
    ((webhookCore env pay sz ps price).2.1.any fun o => !o.reduceOnly) = true →
    (webhookCore env pay sz ps price).1 = ⟨"error", 500⟩
      ∧ (webhookCore env pay sz ps price).2.2 = ps := by
  intro hany
  unfold webhookCore at hany ⊢
  simp only [hopen] at hany ⊢
  split_ifs at hany ⊢ <;> simp_all [closeCall, openCall]

/-- No dispatch branch issues more than two order calls. -/
theorem webhookCore_len (env : Env) (pay : Payload) (sz : ℚ)
    (ps : PositionState) (price : ℚ) :
    (webhookCore env pay sz ps price).2.1.length ≤ 2 := by
  unfold webhookCore
  dsimp only
  split_ifs <;> simp

/-- C7 (amended): a failed OPEN order is surfaced — whenever a request's
trace contains a non-reduce-only order and the open placement reported
failure, the response is an error and the tracker is unchanged.  No request
issues more than two order calls (each placement is attempted exactly once,
never retried).  A failed CLOSE in a reversal is not surfaced: the engine
skips the balance re-read and still places the open order sized from the
original balance. -/
theorem order_failure_surfaced (env : Env) (pay : Payload)
    (ded : DedupState) (ps : PositionState) (now sz price : ℚ)
    (hsz : pay.positionSize = some sz)
    (hp : get_current_price env = some price)
    (hd : (is_duplicate ded
      (mkKey (pyLower pay.action) (pyLower pay.marketPosition) sz) now).1 = false) :
    (env.openOk = false →
      ((webhook env pay ded ps now).orders.any fun o => !o.reduceOnly) = true →
      (webhook env pay ded ps now).resp = ⟨"error", 500⟩
        ∧ (webhook env pay ded ps now).ps = ps)
    ∧ (webhook env pay ded ps now).orders.length ≤ 2
    ∧ (pyLower pay.action = "buy" → pyLower pay.prevMarketPosition = "short" →
      pyLower pay.marketPosition = "long" → 0 < (get_positions env).2 →
      env.closeOk = false →
      (webhook env pay ded ps now).orders =
        [closeCall "buy" (get_positions env).2,
          openCall "buy" (sizeQuantity (get_account_balance env) price)])
    ∧ (pyLower pay.action = "sell" → pyLower pay.prevMarketPosition = "long" →
      pyLower pay.marketPosition = "short" → 0 < (get_positions env).1 →
      env.closeOk = false →
      (webhook env pay ded ps now).orders =
        [closeCall "sell" (get_positions env).1,
          openCall "sell" (sizeQuantity (get_account_balance env) price)]) := by
  refine ⟨?_, ?_, ?_, ?_⟩
  · intro hopen hany
    rw [webhook_eq_core hsz hd hp] at hany ⊢
    dsimp only at hany ⊢
    exact webhookCore_openFail env pay sz ps price hopen hany
  · rw [webhook_eq_core hsz hd hp]
    dsimp only
    exact webhookCore_len env pay sz ps price
  · intro ha hprev hmp hpos hclose
    have hd' := hd
    simp only [ha, hmp] at hd'
    rw [webhook_some hsz]
    simp only [webhookBody, webhookCore, ha, hprev, hmp, hd', hp, gt_iff_lt,
      hpos, hclose]
    cases env.openOk <;> simp
  · intro ha hprev hmp hpos hclose
    have hd' := hd
    simp only [ha, hmp] at hd'
    rw [webhook_some hsz]
    simp only [webhookBody, webhookCore, ha, hprev, hmp, hd', hp, gt_iff_lt,
      hpos, hclose]
    cases env.openOk <;> simp

/-- Witness for `order_failure_surfaced`: a new-long request whose open
order fails gets an error response with the tracker unchanged, its trace is
the single failed open attempt, and a failed-close reversal proceeds to the
open. -/
theorem order_failure_surfaced_w :
    ((webhook ⟨some 1, some 10, some (0, 0), true, some 0, false⟩
        ⟨"buy", "long", "flat", some 4⟩ ⟨none, 0⟩ ⟨0, 0⟩ 0).resp = ⟨"error", 500⟩
      ∧ (webhook ⟨some 1, some 10, some (0, 0), true, some 0, false⟩
        ⟨"buy", "long", "flat", some 4⟩ ⟨none, 0⟩ ⟨0, 0⟩ 0).ps = ⟨0, 0⟩)
    ∧ (webhook ⟨some 1, some 10, some (0, 0), true, some 0, false⟩
        ⟨"buy", "long", "flat", some 4⟩ ⟨none, 0⟩ ⟨0, 0⟩ 0).orders.length ≤ 2 := by
  have h := order_failure_surfaced ⟨some 1, some 10, some (0, 0), true, some 0, false⟩
    ⟨"buy", "long", "flat", some 4⟩ ⟨none, 0⟩ ⟨0, 0⟩ 0 4 1
    rfl (by with_unfolding_all rfl) (by with_unfolding_all rfl)
  exact ⟨h.1 rfl (by with_unfolding_all rfl), h.2.1⟩

/-- The core dispatch only ever produces the three statuses
`ignored`/200, `success`/200 and `error`/500. -/
theorem webhookCore_resp (env : Env) (pay : Payload) (sz : ℚ)
    (ps : PositionState) (price : ℚ) :
    (webhookCore env pay sz ps price).1 = ⟨"ignored", 200⟩
      ∨ (webhookCore env pay sz ps price).1 = ⟨"success", 200⟩
      ∨ (webhookCore env pay sz ps price).1 = ⟨"error", 500⟩ := by
  unfold webhookCore
  dsimp only
  split_ifs <;> simp

/-- C9 counterexample: a payload whose `positionSize` field fails numeric
parsing is caught at the request boundary and answered with the `error`/500
status — not with the `ignored` status the specification promises for
unparsable payloads. -/
theorem malformed_payload_error_cex :
    webhook ⟨some 1, some 1, some (0, 0), true, some 0, true⟩
        ⟨"", "", "", none⟩ ⟨none, 0⟩ ⟨0, 0⟩ 0
      = ⟨⟨"error", 500⟩, [], ⟨0, 0⟩, ⟨none, 0⟩⟩
    ∧ ("error" : String) ≠ "ignored" :=
  ⟨rfl, by decide⟩

/-- C9 (amended): every request is answered with one of the three
structured statuses (`ignored`/200, `success`/200, `error`/500) — nothing
escapes the boundary.  A payload whose `positionSize` fails numeric parsing
is answered with `error`/500 and no order.  A payload that parses but
matches no actionable branch is answered with `ignored`/200 and no order —
provided the price fetch succeeded (a failed price fetch turns even a
non-actionable payload into an `error`). -/
theorem structured_response_always (env : Env) (pay : Payload)
    (ded : DedupState) (ps : PositionState) (now : ℚ) :
    ((webhook env pay ded ps now).resp = ⟨"ignored", 200⟩
      ∨ (webhook env pay ded ps now).resp = ⟨"success", 200⟩
      ∨ (webhook env pay ded ps now).resp = ⟨"error", 500⟩)
    ∧ (pay.positionSize = none →
      webhook env pay ded ps now = ⟨⟨"error", 500⟩, [], ps, ded⟩)
    ∧ (∀ sz price : ℚ, pay.positionSize = some sz →
      (is_duplicate ded
        (mkKey (pyLower pay.action) (pyLower pay.marketPosition) sz) now).1 = false →
      get_current_price env = some price →
      pyLower pay.action ≠ "buy" → pyLower pay.action ≠ "sell" →
      ¬(sz = 0 ∧ pyLower pay.marketPosition = "flat") →
      webhook env pay ded ps now = ⟨⟨"ignored", 200⟩, [], ps,
        (is_duplicate ded
          (mkKey (pyLower pay.action) (pyLower pay.marketPosition) sz) now).2⟩) := by
  refine ⟨?_, ?_, ?_⟩
  · cases hsz : pay.positionSize with
    | none =>
      rw [webhook_none hsz]
      simp
    | some sz =>
      rw [webhook_some hsz]
      unfold webhookBody
      dsimp only
      split_ifs with h1
      · simp
      · cases hgp : get_current_price env with
        | none => simp
        | some price =>
          dsimp only
          exact webhookCore_resp env pay sz ps price
  · intro hsz
    rw [webhook_none hsz]
  · intro sz price hsz hd hp ha1 ha2 hflat
    have hcore : webhookCore env pay sz ps price = (⟨"ignored", 200⟩, [], ps) := by
      unfold webhookCore
      dsimp only
      simp [ha1, ha2, hflat]
    rw [webhook_eq_core hsz hd hp, hcore]

/-- Witness for `structured_response_always`: a parsed but non-actionable
payload (action `hold`) is answered with `ignored`/200 and no order. -/
theorem structured_response_always_w :
    webhook ⟨some 5, some 10, some (0, 0), true, some 0, true⟩
        ⟨"hold", "long", "", some 2⟩ ⟨none, 0⟩ ⟨0, 0⟩ 0
      = ⟨⟨"ignored", 200⟩, [], ⟨0, 0⟩, ⟨some (mkKey "hold" "long" 2), 0⟩⟩ := by
  have h := (structured_response_always
      ⟨some 5, some 10, some (0, 0), true, some 0, true⟩
      ⟨"hold", "long", "", some 2⟩ ⟨none, 0⟩ ⟨0, 0⟩ 0).2.2 2 5
      rfl (by with_unfolding_all rfl) (by with_unfolding_all rfl)
      (by with_unfolding_all decide) (by with_unfolding_all decide)
      (by with_unfolding_all decide)
  rw [h]
  with_unfolding_all rfl

/-- C10 counterexample: a payload with empty `action` (neither `buy` nor
`sell`) but `positionSize = 0` and `marketPosition = "flat"` takes the
close-all path: it places a reduce-only close, resets the tracker from
`{1, 0}` to `{0, 0}` and returns `success` — not the no-op `ignored`
response the claim asserts for every non-buy/sell action. -/
theorem flat_path_gating_cex :
    webhook ⟨some 1, some 100, some (5, 0), true, some 0, true⟩
        ⟨"", "flat", "", some 0⟩ ⟨none, 0⟩ ⟨1, 0⟩ 0
      = ⟨⟨"success", 200⟩, [closeCall "sell" 5], ⟨0, 0⟩,
          ⟨some (mkKey "" "flat" 0), 0⟩⟩
    ∧ ("" : String) ≠ "buy" ∧ ("" : String) ≠ "sell"
    ∧ (⟨0, 0⟩ : PositionState) ≠ ⟨1, 0⟩ := by
  refine ⟨by with_unfolding_all rfl, by decide, by decide, by decide⟩

/-- C10 (amended): the close-all path is gated solely on `positionSize = 0`
and `marketPosition = "flat"`, regardless of `action`, and is checked before
the action dispatch.  A non-duplicate parsed signal with an available price
that misses the close-all gate is a no-op `ignored`/200 with no orders and
an unchanged tracker in two cases: `marketPosition = "flat"` with a
non-zero `positionSize` (any action), and an action that is neither `buy`
nor `sell`. -/
theorem nonactionable_ignored (env : Env) (pay : Payload)
    (ded : DedupState) (ps : PositionState) (now sz price : ℚ)
    (hsz : pay.positionSize = some sz)
    (hp : get_current_price env = some price)
    (hd : (is_duplicate ded
      (mkKey (pyLower pay.action) (pyLower pay.marketPosition) sz) now).1 = false) :
    (pyLower pay.marketPosition = "flat" → sz ≠ 0 →
      webhook env pay ded ps now = ⟨⟨"ignored", 200⟩, [], ps,
        (is_duplicate ded
          (mkKey (pyLower pay.action) (pyLower pay.marketPosition) sz) now).2⟩)
    ∧ (pyLower pay.action ≠ "buy" → pyLower pay.action ≠ "sell" →
      ¬(sz = 0 ∧ pyLower pay.marketPosition = "flat") →
      webhook env pay ded ps now = ⟨⟨"ignored", 200⟩, [], ps,
        (is_duplicate ded
          (mkKey (pyLower pay.action) (pyLower pay.marketPosition) sz) now).2⟩) := by
  constructor
  · intro hmp hsz0
    have hcore : webhookCore env pay sz ps price = (⟨"ignored", 200⟩, [], ps) := by
      unfold webhookCore
      dsimp only
      simp [hmp, hsz0]
    rw [webhook_eq_core hsz hd hp, hcore]
  · intro ha1 ha2 hflat
    have hcore : webhookCore env pay sz ps price = (⟨"ignored", 200⟩, [], ps) := by
      unfold webhookCore
      dsimp only
      simp [ha1, ha2, hflat]
    rw [webhook_eq_core hsz hd hp, hcore]

/-- Witness for `nonactionable_ignored`: a buy signal with
`marketPosition = "FLAT"` and a non-zero `positionSize` is a no-op. -/
theorem nonactionable_ignored_w :
    webhook ⟨some 3, some 10, some (2, 0), true, some 0, true⟩
        ⟨"buy", "FLAT", "short", some 9⟩ ⟨none, 0⟩ ⟨1, 1⟩ 0
      = ⟨⟨"ignored", 200⟩, [], ⟨1, 1⟩, ⟨some (mkKey "buy" "flat" 9), 0⟩⟩ := by
  have h := (nonactionable_ignored ⟨some 3, some 10, some (2, 0), true, some 0, true⟩
      ⟨"buy", "FLAT", "short", some 9⟩ ⟨none, 0⟩ ⟨1, 1⟩ 0 9 3
      rfl (by with_unfolding_all rfl) (by with_unfolding_all rfl)).1
      (by with_unfolding_all rfl) (by norm_num)
  rw [h]
  with_unfolding_all rfl

end BotWLFI
